import Mathlib

/-! Verification of the ISP-monitor snapshot differencing / emission engine.

A shallow embedding, in Lean 4, of the polling / differencing / emission
logic of the `isp-monitor` repository's collector scripts, together with
theorems settling the stated properties of that logic.

Conventions of the embedding:

* Python `dict`s (which preserve insertion order) are embedded as
  association lists `StrMap α := List (String × α)`; `d[k] = v` is
  `setKey` (replace in place, else append), `d.get(k)` is `List.lookup`,
  and iteration order is list order.
* Python machine integers are unbounded, so counters are embedded as `Int`.
* Python `int(s)` on a string is embedded as `pyInt?` returning `Option Int`
  (`none` models the `ValueError` path).
* The wall clock (`datetime.now`, `time.time`) and the datetime formatting
  library are external inputs; they enter the embedding as explicit
  parameters (`clkNanos`, `clkIso`, `isoOf`).
* An SNMP query result is embedded as `Option String` (`none` models an
  exception from `session.get` or a missing/falsy `result.value`).
-/

namespace IspMonitor

/-- Association-list map with Python-`dict` insertion-order semantics. -/
abbrev StrMap (α : Type) := List (String × α)

/-- Python `d[k] = v`: replace the first binding of `k` in place, else append. -/
def setKey {α : Type} : StrMap α → String → α → StrMap α
  | [], k, v => [(k, v)]
  | (k', v') :: rest, k, v =>
    if k' = k then (k, v) :: rest else (k', v') :: setKey rest k v

/-- The value of a decimal digit character. -/
def decDigit? (c : Char) : Option Nat :=
  if 48 ≤ c.toNat ∧ c.toNat ≤ 57 then some (c.toNat - 48) else none

/-- Accumulate the value of a decimal numeral. -/
def decNatAux : List Char → Nat → Option Nat
  | [], acc => some acc
  | c :: rest, acc =>
      match decDigit? c with
      | some d => decNatAux rest (acc * 10 + d)
      | none => none

/-- The value of a non-empty decimal numeral. -/
def decNat? (cs : List Char) : Option Nat :=
  if cs.isEmpty then none else decNatAux cs 0

/-- Python `int(s)` on an (optionally `-`-signed) decimal string; `none`
models the `ValueError` raised on anything else.  (The collectors only
ever pass SNMP counter strings, which are plain decimal numerals.) -/
def pyInt? (s : String) : Option Int :=
  match s.data with
  | '-' :: rest => (decNat? rest).map (fun n => -(n : Int))
  | l => (decNat? l).map (fun n => (n : Int))

/-- A leaf value inside a notification update: the scripts emit either
integer counters or raw strings. -/
inductive GVal where
  | int (n : Int)
  | str (s : String)
deriving DecidableEq, Repr

/-- One `{"Path": ..., "values": {...}}` entry of a notification object. -/
structure GUpdate where
  path : String
  values : List (String × GVal)
deriving DecidableEq, Repr

/-- One notification object of the gNMI-like wire shape: `source`,
`subscription-name`, `timestamp` (epoch nanoseconds), `time` (ISO-8601
string), optional `prefix` (field `pfx` here) and the update list. -/
structure GBatch where
  source : String
  subscriptionName : String
  timestamp : Int
  time : String
  pfx : Option String
  updates : List GUpdate
deriving DecidableEq, Repr

/-- An output line: a notification object or the `{"sync-response": true}` marker. -/
inductive GLine where
  | batch (b : GBatch)
  | sync
deriving DecidableEq, Repr

/-- Timestamp of an output line, when it has one. -/
def GLine.tsOf : GLine → Option Int
  | .batch b => some b.timestamp
  | .sync => none

/-! Section: `if-stats-snmp-get-optimizado.py` — `EfficientSNMPCollector` -/

/-- The `CALCULATED_METRICS['in-pkts']` (lines 51-54). -/
def CALCULATED_IN : List String :=
  ["in-unicast-pkts", "in-multicast-pkts", "in-broadcast-pkts"]

/-- The `CALCULATED_METRICS['out-pkts']` (lines 51-54). -/
def CALCULATED_OUT : List String :=
  ["out-unicast-pkts", "out-multicast-pkts", "out-broadcast-pkts"]

/-- The `total += data[if_name].get(metric, 0)` summation used by
`calculate_derived_metrics` (lines 195-203): an absent metric contributes 0. -/
def sumMetrics (m : StrMap Int) (fields : List String) : Int :=
  fields.foldl (fun acc f => acc + ((m.lookup f).getD 0)) 0

/-- The `EfficientSNMPCollector.calculate_derived_metrics` (lines 190-204),
restricted to one interface's metric dict: compute `in-pkts`, store it,
then compute `out-pkts` from the (already updated) dict and store it. -/
def calculate_derived_metrics (m : StrMap Int) : StrMap Int :=
  let m1 := setKey m "in-pkts" (sumMetrics m CALCULATED_IN)
  setKey m1 "out-pkts" (sumMetrics m1 CALCULATED_OUT)

/-- The `key_metrics` of `generate_compact_gnmi` (line 241). -/
def key_metrics : List String :=
  ["in-octets", "out-octets", "in-discards", "out-discards"]

/-- The `should_include` condition of `generate_compact_gnmi` (lines 242-247):

    metric_name in key_metrics or previous is None or value != previous or
    (previous > 0 and abs(value - previous) > max(1000, previous * 0.01))

Python evaluates `previous * 0.01` in binary floating point; the embedding
uses exact rational arithmetic, which agrees with the float computation on
every input this development evaluates the condition at. -/
def should_include (metricName : String) (previous : Option Int) (value : Int) : Bool :=
  decide (metricName ∈ key_metrics) ||
    match previous with
    | none => true
    | some prev =>
        decide (value ≠ prev) ||
          (decide (prev > 0) &&
            decide (|(value : ℚ) - (prev : ℚ)| > max 1000 ((prev : ℚ) * 0.01)))

/-- The raw-value conversion of `EfficientSNMPCollector.process_results`
(lines 176-185): start from 0; if `result.value` is truthy and not the
`NOSUCHINSTANCE` sentinel, try `int(...)`, falling back to 0 on failure.
`none` models a falsy `result.value`. -/
def coerce_result_value (rawValue : Option String) : Int :=
  match rawValue with
  | none => 0
  | some s =>
      if s ≠ "" ∧ s ≠ "NOSUCHINSTANCE" then (pyInt? s).getD 0 else 0

/-- One step of the metric loop of `generate_compact_gnmi` (lines 230-257):
the accumulator carries the `updates` list built so far and the
`previous_values` cache; the cache is written only inside the
`should_include` branch. -/
def compact_step (ifName : String) (acc : List GUpdate × StrMap Int)
    (mv : String × Int) : List GUpdate × StrMap Int :=
  let cacheKey := ifName ++ "_" ++ mv.1
  let previous := acc.2.lookup cacheKey
  if should_include mv.1 previous mv.2 then
    (acc.1 ++ [⟨mv.1, [(mv.1, GVal.int mv.2)]⟩], setKey acc.2 cacheKey mv.2)
  else acc

/-- The per-interface body of `generate_compact_gnmi` (lines 223-257):
fold `compact_step` over `current_metrics.items()`. -/
def process_metrics (ifName : String) (metrics : StrMap Int)
    (prevValues : StrMap Int) : List GUpdate × StrMap Int :=
  metrics.foldl (compact_step ifName) ([], prevValues)

/-- The `INTERFACES` of the optimizado/get collectors (line 22): fixed dict
`{'Ethernet1': 1, 'Ethernet2': 2}`, iterated in insertion order. -/
def OPT_INTERFACES : List String := ["Ethernet1", "Ethernet2"]

/-- One iteration of the interface loop of `generate_compact_gnmi`
(lines 223-268): skip interfaces absent from `data`; otherwise process
the metrics (threading the `previous_values` cache) and append a batch
only when there are updates. -/
def compact_iface_step (clkNanos : Int) (clkIso : String)
    (data : StrMap (StrMap Int)) (acc : List GLine × StrMap Int)
    (ifName : String) : List GLine × StrMap Int :=
  match data.lookup ifName with
  | none => acc
  | some metrics =>
      let upv := process_metrics ifName metrics acc.2
      if upv.1.isEmpty then (acc.1, upv.2)
      else
        (acc.1 ++ [GLine.batch
          ⟨"router-edge", "eos_interface_stats", clkNanos, clkIso,
            some ("interfaces/interface[name=" ++ ifName ++ "]/state/counters"),
            upv.1⟩], upv.2)

/-- The `EfficientSNMPCollector.generate_compact_gnmi` (lines 206-279).
`clkNanos`/`clkIso` are the cycle's single wall-clock reading (lines
216-218); returns the emitted lines and the updated `previous_values`. -/
def generate_compact_gnmi (clkNanos : Int) (clkIso : String) (cycleCount : Nat)
    (prevValues : StrMap Int) (data : StrMap (StrMap Int)) :
    List GLine × StrMap Int :=
  let folded := OPT_INTERFACES.foldl (compact_iface_step clkNanos clkIso data)
    ([], prevValues)
  if cycleCount % 100 = 0 then (folded.1 ++ [GLine.sync], folded.2) else folded

/-! Section: `ifaces-stats-snmp.py` / `ifaces-stats-snmp-v2.py` / `ifaces-stats-dual-snmp.py`
— `SNMPMonitorGNMICompat` / `SNMPInterfaceMonitor` -/

/-- The `get_counter` of the string-valued collectors (`ifaces-stats-snmp.py`
lines 75-84, identical in v2/v3/dual): return `str(res.value)` when the
query succeeded with a truthy, non-sentinel value, else `"0"`.  `none`
models an exception from `session.get` or a falsy response. -/
def get_counter_result (res : Option String) : String :=
  match res with
  | none => "0"
  | some v =>
      if v ≠ "" ∧ v ∉ ["NOSUCHINSTANCE", "NOSUCHOBJECT", ""] then v else "0"

/-- The `PKT_FIELDS_IN` (`ifaces-stats-snmp.py` line 50; inlined in v2/dual). -/
def PKT_FIELDS_IN : List String :=
  ["in-unicast-pkts", "in-multicast-pkts", "in-broadcast-pkts"]

/-- The `PKT_FIELDS_OUT` (`ifaces-stats-snmp.py` line 51; inlined in v2/dual). -/
def PKT_FIELDS_OUT : List String :=
  ["out-unicast-pkts", "out-multicast-pkts", "out-broadcast-pkts"]

/-- The `int(raw.get(f, 0))`: an absent field is `int(0) = 0`; a present field
goes through Python `int()` on its string value, which can raise. -/
def pktField (raw : StrMap String) (f : String) : Option Int :=
  match raw.lookup f with
  | none => some 0
  | some s => pyInt? s

/-- The `sum(int(raw.get(f, 0)) for f in fields)` (`ifaces-stats-snmp-v2.py`
lines 89-90); `none` when any `int()` raises. -/
def sumPktFields (raw : StrMap String) (fields : List String) : Option Int :=
  (fields.mapM (pktField raw)).map (fun l => l.sum)

/-- The snapshot-augmentation part of `collect_counters`
(`ifaces-stats-snmp-v2.py` lines 86-92, `ifaces-stats-dual-snmp.py` lines
69-74): add `in-pkts` / `out-pkts` totals to the raw dict. -/
def augment_v2 (raw : StrMap String) : Option (StrMap String) := do
  let inP ← sumPktFields raw PKT_FIELDS_IN
  let outP ← sumPktFields raw PKT_FIELDS_OUT
  pure (setKey (setKey raw "in-pkts" (toString inP)) "out-pkts" (toString outP))

/-- The `changed = {k: v for k, v in raw.items() if v != self.prev_counters.get(k)}`
(`ifaces-stats-snmp-v2.py` line 95, `ifaces-stats-dual-snmp.py` line 77). -/
def changed_filter (prev raw : StrMap String) : StrMap String :=
  raw.filter (fun kv => some kv.2 ≠ prev.lookup kv.1)

/-- The `SNMPMonitorGNMICompat.collect_counters` (`ifaces-stats-snmp-v2.py`
lines 83-99) = `SNMPInterfaceMonitor.collect_counters`
(`ifaces-stats-dual-snmp.py` lines 68-79): augment the raw snapshot, set
`prev_counters` to it unconditionally, and return the changed subset —
falling back to the whole snapshot when nothing changed.  Result:
`(returned counters, new prev_counters)`. -/
def collect_counters_v2 (prev raw : StrMap String) :
    Option (StrMap String × StrMap String) :=
  (augment_v2 raw).map (fun aug =>
    let changed := changed_filter prev aug
    (if changed.isEmpty then aug else changed, aug))

/-- The error/broadcast batch of `SNMPMonitorGNMICompat.run`
(`ifaces-stats-snmp.py` lines 153-162) before zero-filtering. -/
def error_bc_batch (counters : String → String) : StrMap String :=
  ["in-broadcast-pkts", "in-discards", "in-errors",
   "out-broadcast-pkts", "out-discards", "out-errors"].map
    (fun k => (k, counters k))

/-- The `non_zero_batch = {k: v for k, v in batch.items() if v != "0"}`
(`ifaces-stats-snmp.py` line 162): the zero-suppression filter applied to
the always-emitted error/broadcast block. -/
def non_zero_batch (counters : String → String) : StrMap String :=
  (error_bc_batch counters).filter (fun kv => kv.2 ≠ "0")

/-! Section: `ifaces-stats-snmp-v3.py` — `SNMPLeafMonitor` -/

/-- The keys of `OID_MAP` in `ifaces-stats-snmp-v3.py` (lines 27-41), in
dict insertion order. -/
def OID_KEYS_V3 : List String :=
  ["in-octets", "in-unicast-pkts", "in-multicast-pkts", "in-broadcast-pkts",
   "out-octets", "out-unicast-pkts", "out-multicast-pkts", "out-broadcast-pkts",
   "in-discards", "in-errors", "out-discards", "out-errors",
   "carrier-transitions"]

/-- The `SNMPLeafMonitor.should_emit` (lines 68-74): suppress zero-valued
discard/error and broadcast leaves; everything else always passes. -/
def should_emit (leaf value : String) : Bool :=
  if leaf ∈ ["in-discards", "out-discards", "in-errors", "out-errors"] then
    decide (value ≠ "0")
  else if leaf ∈ ["in-broadcast-pkts", "out-broadcast-pkts"] then
    decide (value ≠ "0")
  else true

/-- The `SNMPLeafMonitor.get_path` (lines 65-66). -/
def get_path_v3 (ifName leaf : String) : String :=
  "interfaces/interface[name=" ++ ifName ++ "]/state/counters/" ++ leaf

/-- The `SNMPLeafMonitor.generate_updates` (lines 76-101).  `prev` models
`self.prev_values` (total over the OID keys; `none` is Python `None`,
the initial state of line 49); `current` models `collect_current()`
(total over the OID keys).  The retained state becomes `current`
(line 100); only the update list is returned here. -/
def generate_updates_v3 (ifName : String) (prev : String → Option String)
    (current : String → String) (tsNs : Int) : List GUpdate :=
  let lastPath := get_path_v3 ifName "last-update"
  ⟨lastPath, [(lastPath, GVal.int tsNs)]⟩ ::
    OID_KEYS_V3.filterMap (fun leaf =>
      if some (current leaf) ≠ prev leaf ∧ should_emit leaf (current leaf) = true then
        some ⟨get_path_v3 ifName leaf,
          [(get_path_v3 ifName leaf, GVal.str (current leaf))]⟩
      else none)

/-! Section: `ifaces-stats-dual-snmp.py` — `SNMPInterfaceMonitor.generate_updates` -/

/-- The `SNMPInterfaceMonitor.get_path_prefix` (lines 81-82). -/
def path_prefix_dual (ifName : String) : String :=
  "interfaces/interface[name=" ++ ifName ++ "]/state/counters"

/-- The `emit_update(path, values, ts_ns)` with scalar `values` and no prefix
(`ifaces-stats-dual-snmp.py` lines 84-99, `else` branch): one update whose
`Path` is the full leaf path.  `isoOf` models the external
`datetime.fromtimestamp(...).isoformat()` formatting of line 89. -/
def emit_leaf (isoOf : Int → String) (path : String) (v : GVal) (tsNs : Int) : GBatch :=
  ⟨"router-edge", "snmp_interface_stats", tsNs, isoOf tsNs, none,
    [⟨path, [(path, v)]⟩]⟩

/-- The `emit_update("", values, ts_ns, prefix=...)` with dict `values`
(`ifaces-stats-dual-snmp.py` lines 91-94): a prefixed batch with one
update per dict entry. -/
def emit_block (isoOf : Int → String) (values : StrMap String) (tsNs : Int)
    (pfx : String) : GBatch :=
  ⟨"router-edge", "snmp_interface_stats", tsNs, isoOf tsNs, some pfx,
    values.map (fun kv => ⟨kv.1, [(kv.1, GVal.str kv.2)]⟩)⟩

/-- The `{k: counters[k] for k in keys if k in counters}` (block comprehensions
of `generate_updates`, lines 117, 122, 127, 136). -/
def block_of (counters : StrMap String) (keys : List String) : StrMap String :=
  keys.filterMap (fun k => (counters.lookup k).map (fun v => (k, v)))

/-- Error-block keys (line 117). -/
def ERROR_KEYS : List String :=
  ["in-discards", "in-errors", "out-discards", "out-errors"]

/-- Broadcast-block keys (line 122). -/
def BC_KEYS : List String := ["in-broadcast-pkts", "out-broadcast-pkts"]

/-- The `in-*` block keys (line 127). -/
def IN_KEYS : List String :=
  ["in-octets", "in-pkts", "in-unicast-pkts", "in-multicast-pkts"]

/-- The `out-*` block keys (line 136). -/
def OUT_KEYS : List String :=
  ["out-octets", "out-pkts", "out-unicast-pkts", "out-multicast-pkts"]

/-- The carrier-transitions segment of `generate_updates` (lines 111-113). -/
def carrier_segment (isoOf : Int → String) (ifName : String)
    (counters : StrMap String) (tsNs : Int) : List GBatch :=
  match counters.lookup "carrier-transitions" with
  | some v =>
      [emit_leaf isoOf (path_prefix_dual ifName ++ "/carrier-transitions") (GVal.str v) tsNs]
  | none => []

/-- The error-block segment (lines 117-119). -/
def error_segment (isoOf : Int → String) (ifName : String)
    (counters : StrMap String) (tsNs : Int) : List GBatch :=
  let b := block_of counters ERROR_KEYS
  if b.isEmpty then [] else [emit_block isoOf b tsNs (path_prefix_dual ifName)]

/-- The broadcast-block segment (lines 122-124). -/
def bc_segment (isoOf : Int → String) (ifName : String)
    (counters : StrMap String) (tsNs : Int) : List GBatch :=
  let b := block_of counters BC_KEYS
  if b.isEmpty then [] else [emit_block isoOf b tsNs (path_prefix_dual ifName)]

/-- The `in-*` block segment (lines 127-133): a single-entry block whose
only key is `in-multicast-pkts` is emitted per-leaf instead. -/
def in_segment (isoOf : Int → String) (ifName : String)
    (counters : StrMap String) (tsNs : Int) : List GBatch :=
  match block_of counters IN_KEYS with
  | [] => []
  | [(k, v)] =>
      if k = "in-multicast-pkts" then
        [emit_leaf isoOf (path_prefix_dual ifName ++ "/in-multicast-pkts") (GVal.str v) tsNs]
      else [emit_block isoOf [(k, v)] tsNs (path_prefix_dual ifName)]
  | b => [emit_block isoOf b tsNs (path_prefix_dual ifName)]

/-- The `out-*` block segment (lines 136-142), analogous. -/
def out_segment (isoOf : Int → String) (ifName : String)
    (counters : StrMap String) (tsNs : Int) : List GBatch :=
  match block_of counters OUT_KEYS with
  | [] => []
  | [(k, v)] =>
      if k = "out-multicast-pkts" then
        [emit_leaf isoOf (path_prefix_dual ifName ++ "/out-multicast-pkts") (GVal.str v) tsNs]
      else [emit_block isoOf [(k, v)] tsNs (path_prefix_dual ifName)]
  | b => [emit_block isoOf b tsNs (path_prefix_dual ifName)]

/-- The `SNMPInterfaceMonitor.generate_updates` (lines 101-144): collect (and
advance state), then build, in order: the unconditional `last-update`
single-update batch (lines 106-108), carrier-transitions, then the
error / broadcast / in / out blocks.  Result:
`(batch list, new prev_counters)`; `none` when `int()` raised inside
`collect_counters`. -/
def generate_updates_dual (isoOf : Int → String) (ifName : String)
    (prev raw : StrMap String) (tsNs : Int) :
    Option (List GBatch × StrMap String) :=
  (collect_counters_v2 prev raw).map (fun pr =>
    let counters := pr.1
    let lastPath := path_prefix_dual ifName ++ "/last-update"
    (emit_leaf isoOf lastPath (GVal.int tsNs) tsNs ::
      (carrier_segment isoOf ifName counters tsNs ++
        error_segment isoOf ifName counters tsNs ++
        bc_segment isoOf ifName counters tsNs ++
        in_segment isoOf ifName counters tsNs ++
        out_segment isoOf ifName counters tsNs),
      pr.2))

/-- The fixed configured position of a batch within one interface's cycle
output: `last-update` first, then carrier-transitions, then the error,
broadcast, `in-*` and `out-*` groups.  A batch is classified by its
prefix and the path of its first update. -/
def rank_dual (ifName : String) (b : GBatch) : Nat :=
  let pfx := path_prefix_dual ifName
  match b.pfx, b.updates with
  | none, u :: _ =>
      if u.path = pfx ++ "/last-update" then 0
      else if u.path = pfx ++ "/carrier-transitions" then 1
      else if u.path = pfx ++ "/in-multicast-pkts" then 4
      else if u.path = pfx ++ "/out-multicast-pkts" then 5
      else 6
  | some _, u :: _ =>
      if u.path ∈ ERROR_KEYS then 2
      else if u.path ∈ BC_KEYS then 3
      else if u.path ∈ IN_KEYS then 4
      else if u.path ∈ OUT_KEYS then 5
      else 6
  | _, [] => 6

/-! Section: `if-stats-snmp-get.py` — `GNMIFormatCollector` -/

/-- The `GNMIFormatCollector.get_gnmi_timestamps` (lines 78-96): read the wall
clock (`clkNanos` = `int(now.timestamp() * 1e9)`, `clkIso` the formatted
ISO string — both external inputs), increment `self.counter`, and return
the nanosecond value lowered by `counter % 1000` ("Ajustar ligeramente
para cada métrica").  Result: `(timestamp_variation, iso_time, counter)`. -/
def get_gnmi_timestamps (counter : Nat) (clkNanos : Int) (clkIso : String) :
    Int × String × Nat :=
  let counter1 := counter + 1
  (clkNanos - (counter1 % 1000 : Nat), clkIso, counter1)

/-- The `main_metrics` (lines 161-162). -/
def MAIN_METRICS : List String :=
  ["in-octets", "out-octets", "in-unicast-pkts", "out-unicast-pkts",
   "in-multicast-pkts", "out-multicast-pkts"]

/-- The `individual_metrics` (line 187). -/
def INDIVIDUAL_METRICS : List String :=
  ["in-discards", "out-discards", "in-errors", "out-errors"]

/-- The `group2_metrics` (lines 215-216). -/
def GROUP2_METRICS : List String :=
  ["in-discards", "out-discards", "in-errors", "out-errors",
   "in-fcs-errors", "in-pkts-ipv6", "out-pkts-ipv6"]

/-- One step of the individual-metrics loop (lines 189-210): emit a
per-leaf unprefixed batch when the cached value is absent or different,
updating the `last_values` cache only in that branch. -/
def individual_step (ifName : String) (ifData : StrMap Int)
    (tsIndividual : Int) (isoTime : String)
    (acc : List GBatch × StrMap Int) (metric : String) :
    List GBatch × StrMap Int :=
  match ifData.lookup metric with
  | none => acc
  | some v =>
      if acc.2.lookup (ifName ++ "_" ++ metric) ≠ some v then
        (acc.1 ++ [⟨"router-edge", "eos_interface_stats", tsIndividual, isoTime, none,
          [⟨"interfaces/interface[name=" ++ ifName ++ "]/state/counters/" ++ metric,
            [("interfaces/interface/state/counters/" ++ metric, GVal.int v)]⟩]⟩],
          setKey acc.2 (ifName ++ "_" ++ metric) v)
      else acc

/-- One iteration of the interface loop of
`GNMIFormatCollector.generate_gnmi_objects` (lines 154-234): one
`get_gnmi_timestamps` call, then the prefixed main group (timestamp
`timestamp_main`), the individual changed metrics (`timestamp_main -
1000000`), and the prefixed group 2 (`timestamp_main - 500000`), all
sharing the call's ISO string.  Result: `(batches, counter, last_values)`. -/
def gen_for_interface (ifName : String) (ifData : StrMap Int)
    (counter : Nat) (lastValues : StrMap Int) (clkNanos : Int) (clkIso : String) :
    List GBatch × Nat × StrMap Int :=
  let tmc := get_gnmi_timestamps counter clkNanos clkIso
  let tsMain := tmc.1
  let isoTime := tmc.2.1
  let mainUpdates := MAIN_METRICS.filterMap (fun m =>
    (ifData.lookup m).map (fun v => GUpdate.mk m [(m, GVal.int v)]))
  let mainB : List GBatch :=
    if mainUpdates.isEmpty then []
    else [⟨"router-edge", "eos_interface_stats", tsMain, isoTime,
      some ("interfaces/interface[name=" ++ ifName ++ "]/state/counters"),
      mainUpdates⟩]
  let indiv := INDIVIDUAL_METRICS.foldl
    (individual_step ifName ifData (tsMain - 1000000) isoTime) ([], lastValues)
  let g2Updates := GROUP2_METRICS.filterMap (fun m =>
    (ifData.lookup m).map (fun v => GUpdate.mk m [(m, GVal.int v)]))
  let g2B : List GBatch :=
    if g2Updates.isEmpty then []
    else [⟨"router-edge", "eos_interface_stats", tsMain - 500000, isoTime,
      some ("interfaces/interface[name=" ++ ifName ++ "]/state/counters"),
      g2Updates⟩]
  (mainB ++ indiv.1 ++ g2B, tmc.2.2, indiv.2)

/-- The `GNMIFormatCollector.generate_gnmi_objects` (lines 144-240): iterate
the fixed interfaces, skipping those absent or empty in `data`; each
processed interface makes its own `get_gnmi_timestamps` call (`clock k`
is the wall-clock reading of the k-th call of this cycle); append the
`sync-response` marker every 10th counter value. -/
def generate_gnmi_objects (clock : Nat → Int × String)
    (counter : Nat) (lastValues : StrMap Int) (data : StrMap (StrMap Int)) :
    List GLine × Nat × StrMap Int :=
  let folded := OPT_INTERFACES.foldl
    (fun (acc : List GLine × Nat × StrMap Int) ifName =>
      match data.lookup ifName with
      | none => acc
      | some ifData =>
          if ifData.isEmpty then acc
          else
            let r := gen_for_interface ifName ifData acc.2.1 acc.2.2
              (clock acc.2.1).1 (clock acc.2.1).2
            (acc.1 ++ r.1.map GLine.batch, r.2.1, r.2.2))
    ([], counter, lastValues)
  if folded.2.1 % 10 = 0 then (folded.1 ++ [GLine.sync], folded.2) else folded

/-! Section: Map and string helper lemmas -/

theorem lookup_setKey_self {α : Type} (m : StrMap α) (k : String) (v : α) :
    (setKey m k v).lookup k = some v := by
  induction m with
  | nil => simp [setKey, List.lookup]
  | cons kv rest ih =>
      obtain ⟨k', v'⟩ := kv
      by_cases h : k' = k
      · simp [setKey, h, List.lookup]
      · simp only [setKey, if_neg h, List.lookup]
        have : (k == k') = false := beq_eq_false_iff_ne.mpr (fun he => h he.symm)
        simp [this, ih]

theorem lookup_setKey_ne {α : Type} (m : StrMap α) {k k' : String} (v : α)
    (h : k' ≠ k) : (setKey m k v).lookup k' = m.lookup k' := by
  induction m with
  | nil => simp [setKey, List.lookup, beq_eq_false_iff_ne.mpr h]
  | cons kv rest ih =>
      obtain ⟨k₀, v₀⟩ := kv
      by_cases h₀ : k₀ = k
      · subst h₀
        simp [setKey, List.lookup, beq_eq_false_iff_ne.mpr h]
      · simp only [setKey, if_neg h₀, List.lookup]
        cases hbe : (k' == k₀) <;> simp [ih]

theorem setKey_of_lookup {α : Type} {m : StrMap α} {k : String} {v : α}
    (h : m.lookup k = some v) : setKey m k v = m := by
  induction m with
  | nil => simp [List.lookup] at h
  | cons kv rest ih =>
      obtain ⟨k₀, v₀⟩ := kv
      by_cases h₀ : k₀ = k
      · subst h₀
        simp [List.lookup] at h
        simp [setKey, h]
      · have : (k == k₀) = false := beq_eq_false_iff_ne.mpr (fun he => h₀ he.symm)
        simp only [List.lookup, this] at h
        simp [setKey, if_neg h₀, ih h]

theorem setKey_ne_nil {α : Type} (m : StrMap α) (k : String) (v : α) :
    setKey m k v ≠ [] := by
  cases m with
  | nil => simp [setKey]
  | cons kv rest =>
      obtain ⟨k₀, v₀⟩ := kv
      by_cases h : k₀ = k <;> simp [setKey, h]

theorem string_append_left_cancel {a b c : String} (h : a ++ b = a ++ c) :
    b = c := by
  have hd := congrArg String.data h
  simp only [String.data_append] at hd
  exact String.ext (List.append_cancel_left hd)

theorem append_right_ne (a : String) {b c : String} (h : b ≠ c) :
    a ++ b ≠ a ++ c :=
  fun he => h (string_append_left_cancel he)

theorem append_ne_of_ne {p q : String} (s t : String)
    (hlen : p.data.length = q.data.length) (hne : p ≠ q) :
    p ++ s ≠ q ++ t := by
  intro h
  apply hne
  have hd := congrArg String.data h
  simp only [String.data_append] at hd
  exact String.ext (List.append_inj hd hlen).1

theorem sumMetrics_foldl_congr (fields : List String) (m m' : StrMap Int)
    (h : ∀ f ∈ fields, m.lookup f = m'.lookup f) (acc : Int) :
    fields.foldl (fun a f => a + ((m.lookup f).getD 0)) acc =
      fields.foldl (fun a f => a + ((m'.lookup f).getD 0)) acc := by
  induction fields generalizing acc with
  | nil => rfl
  | cons f rest ih =>
      rw [List.foldl_cons, List.foldl_cons, h f (by simp)]
      exact ih (fun g hg => h g (by simp [hg])) _

theorem sumMetrics_congr {m m' : StrMap Int} (fields : List String)
    (h : ∀ f ∈ fields, m.lookup f = m'.lookup f) :
    sumMetrics m fields = sumMetrics m' fields :=
  sumMetrics_foldl_congr fields m m' h 0

theorem calculate_derived_metrics_eq (m : StrMap Int) :
    calculate_derived_metrics m =
      setKey (setKey m "in-pkts" (sumMetrics m CALCULATED_IN)) "out-pkts"
        (sumMetrics (setKey m "in-pkts" (sumMetrics m CALCULATED_IN))
          CALCULATED_OUT) := rfl

/-! Section: Claim theorems -/

/-- Claim C2: the derived metric `in-pkts` is the integer sum of
`in-unicast-pkts`, `in-multicast-pkts` and `in-broadcast-pkts` (and
`out-pkts` of the three out-counterparts), with absent inputs contributing
0 and never an error; the calculation is pure/idempotent; and on the
concrete inputs 10, 3, 0 the derived `in-pkts` is 13. -/
theorem derived_metrics_correct :
    (∀ m : StrMap Int,
      (calculate_derived_metrics m).lookup "in-pkts" =
        some (((m.lookup "in-unicast-pkts").getD 0) +
          ((m.lookup "in-multicast-pkts").getD 0) +
          ((m.lookup "in-broadcast-pkts").getD 0)) ∧
      (calculate_derived_metrics m).lookup "out-pkts" =
        some (((m.lookup "out-unicast-pkts").getD 0) +
          ((m.lookup "out-multicast-pkts").getD 0) +
          ((m.lookup "out-broadcast-pkts").getD 0)) ∧
      calculate_derived_metrics (calculate_derived_metrics m) =
        calculate_derived_metrics m) ∧
    (calculate_derived_metrics
      [("in-unicast-pkts", 10), ("in-multicast-pkts", 3),
       ("in-broadcast-pkts", 0)]).lookup "in-pkts" = some 13 := by
  constructor
  · intro m
    refine ⟨?_, ?_, ?_⟩
    · rw [calculate_derived_metrics_eq,
        lookup_setKey_ne _ _ (by decide), lookup_setKey_self]
      simp [sumMetrics, CALCULATED_IN]
    · rw [calculate_derived_metrics_eq, lookup_setKey_self]
      have hcongr : sumMetrics (setKey m "in-pkts" (sumMetrics m CALCULATED_IN))
          CALCULATED_OUT = sumMetrics m CALCULATED_OUT := by
        apply sumMetrics_congr
        intro f hf
        fin_cases hf <;> exact lookup_setKey_ne _ _ (by decide)
      rw [hcongr]
      simp [sumMetrics, CALCULATED_OUT]
    · rw [calculate_derived_metrics_eq m]
      generalize hm2 :
        setKey (setKey m "in-pkts" (sumMetrics m CALCULATED_IN)) "out-pkts"
          (sumMetrics (setKey m "in-pkts" (sumMetrics m CALCULATED_IN))
            CALCULATED_OUT) = m2
      rw [calculate_derived_metrics_eq m2]
      have hIn : sumMetrics m2 CALCULATED_IN = sumMetrics m CALCULATED_IN := by
        apply sumMetrics_congr
        intro f hf
        subst hm2
        fin_cases hf <;>
          rw [lookup_setKey_ne _ _ (by decide), lookup_setKey_ne _ _ (by decide)]
      have h1 : setKey m2 "in-pkts" (sumMetrics m CALCULATED_IN) = m2 := by
        apply setKey_of_lookup
        subst hm2
        rw [lookup_setKey_ne _ _ (by decide), lookup_setKey_self]
      rw [hIn, h1]
      have hOut : sumMetrics m2 CALCULATED_OUT =
          sumMetrics (setKey m "in-pkts" (sumMetrics m CALCULATED_IN))
            CALCULATED_OUT := by
        apply sumMetrics_congr
        intro f hf
        subst hm2
        fin_cases hf <;> rw [lookup_setKey_ne _ _ (by decide)]
      rw [hOut]
      apply setKey_of_lookup
      subst hm2
      rw [lookup_setKey_self]
  · decide

/-- Claim C3 (evidence of the code bug): under the claimed policy
(absolute 1000, relative 1%), a CHANGED record going from 1 000 000 to
1 000 500 must be suppressed — its delta 500 is below both bounds, as the
third conjunct records.  But `should_include` of
`generate_compact_gnmi` evaluates to `true` there (the update is emitted),
because `value != previous` is a disjunct of the include condition,
contradicting the code's own comment ("Incluir si cambió
significativamente (> 1% o > 1000)").  The 1 020 000 case is emitted, as
the claim states. -/
theorem threshold_suppression_bug :
    should_include "in-errors" (some 1000000) 1000500 = true ∧
    should_include "in-errors" (some 1000000) 1020000 = true ∧
    ¬ (|(1000500 : ℚ) - 1000000| ≥ 1000 ∨
        |(1000500 : ℚ) - 1000000| ≥ 1000000 * 0.01) := by
  refine ⟨by decide, by decide, by norm_num⟩

/-- Claim C9: a reading that could not be acquired (`none`, or a falsy /
sentinel response) or whose raw value does not parse as an integer is
coerced to 0 by `process_results`, and to the string `"0"` by
`get_counter`; a parseable value is passed through.  All coercions are
total functions — no failure escalates. -/
theorem malformed_reading_coerced :
    coerce_result_value none = 0 ∧
    (∀ s, pyInt? s = none → coerce_result_value (some s) = 0) ∧
    (∀ s n, pyInt? s = some n → s ≠ "" → s ≠ "NOSUCHINSTANCE" →
      coerce_result_value (some s) = n) ∧
    get_counter_result none = "0" ∧
    get_counter_result (some "NOSUCHINSTANCE") = "0" ∧
    get_counter_result (some "") = "0" := by
  refine ⟨rfl, ?_, ?_, rfl, by decide, by decide⟩
  · intro s hs
    by_cases hc : s ≠ "" ∧ s ≠ "NOSUCHINSTANCE"
    · simp [coerce_result_value, hc, hs]
    · simp [coerce_result_value, hc]
  · intro s n hn h1 h2
    simp [coerce_result_value, h1, h2, hn]

/-- Witness for C9 at concrete inputs: `"x7"` does not parse and is
coerced to 0; `"123"` parses and is passed through. -/
theorem malformed_reading_coerced_witness :
    pyInt? "x7" = none ∧ coerce_result_value (some "x7") = 0 ∧
    pyInt? "123" = some 123 ∧ coerce_result_value (some "123") = 123 :=
  ⟨by decide, malformed_reading_coerced.2.1 "x7" (by decide), by decide,
    malformed_reading_coerced.2.2.1 "123" 123 (by decide) (by decide) (by decide)⟩

/-- Claim C1: whenever `collect_counters` completes, the retained snapshot
(`prev_counters`, the second component) equals exactly the augmented
snapshot computed that cycle, and it does not depend on the previous
state — hence not on anything the changed-filter / fallback emission
decision does.  "Changed" is therefore always relative to the immediately
preceding cycle. -/
theorem state_advances_unconditionally :
    ∀ prev prevB raw p q,
      collect_counters_v2 prev raw = some p →
      collect_counters_v2 prevB raw = some q →
      augment_v2 raw = some p.2 ∧ p.2 = q.2 := by
  intro prev prevB raw p q hp hq
  unfold collect_counters_v2 at hp hq
  cases ha : augment_v2 raw with
  | none =>
      rw [ha] at hp
      simp at hp
  | some aug =>
      rw [ha] at hp hq
      simp only [Option.map_some', Option.some.injEq] at hp hq
      rw [← hp, ← hq]
      exact ⟨rfl, rfl⟩

/-- Witness for C1: a one-field raw snapshot, two different previous
states; the retained snapshot is the augmented snapshot both times. -/
theorem state_advances_unconditionally_witness :
    augment_v2 [("in-unicast-pkts", "10")] =
      some [("in-unicast-pkts", "10"), ("in-pkts", "10"), ("out-pkts", "0")] ∧
    ([("in-unicast-pkts", "10"), ("in-pkts", "10"), ("out-pkts", "0")] :
        StrMap String) =
      [("in-unicast-pkts", "10"), ("in-pkts", "10"), ("out-pkts", "0")] :=
  state_advances_unconditionally [] [("x", "y")] [("in-unicast-pkts", "10")]
    ([("in-unicast-pkts", "10"), ("in-pkts", "10"), ("out-pkts", "0")],
      [("in-unicast-pkts", "10"), ("in-pkts", "10"), ("out-pkts", "0")])
    ([("in-unicast-pkts", "10"), ("in-pkts", "10"), ("out-pkts", "0")],
      [("in-unicast-pkts", "10"), ("in-pkts", "10"), ("out-pkts", "0")])
    rfl rfl

/-- Claim C5: whenever `collect_counters` completes, if the changed-filter
yields nothing (the on-change policy would emit zero updates), the
returned counters fall back to the full augmented snapshot; and the
returned counters are never empty. -/
theorem fallback_nonempty_cycle :
    ∀ prev raw p, collect_counters_v2 prev raw = some p →
      (changed_filter prev p.2 = [] → p.1 = p.2) ∧ p.1 ≠ [] := by
  intro prev raw p hp
  unfold collect_counters_v2 at hp
  cases ha : augment_v2 raw with
  | none =>
      rw [ha] at hp
      simp at hp
  | some aug =>
      rw [ha] at hp
      simp only [Option.map_some', Option.some.injEq] at hp
      have haug : aug ≠ [] := by
        unfold augment_v2 at ha
        cases h1 : sumPktFields raw PKT_FIELDS_IN with
        | none => rw [h1] at ha; simp at ha
        | some a =>
            cases h2 : sumPktFields raw PKT_FIELDS_OUT with
            | none => rw [h1, h2] at ha; simp at ha
            | some b =>
                rw [h1, h2] at ha
                simp at ha
                exact ha ▸ setKey_ne_nil _ _ _
      rw [← hp]
      constructor
      · intro hch
        simp only at hch
        simp [hch]
      · by_cases hemp : (changed_filter prev aug).isEmpty
        · simpa [hemp] using haug
        · simp only [hemp, if_neg, Bool.false_eq_true, if_false]
          intro hnil
          rw [hnil] at hemp
          simp at hemp

/-- Witness for C5: an empty raw snapshot whose augmented form equals the
previous state, so nothing changed; the fallback returns the full
(non-empty) augmented snapshot. -/
theorem fallback_nonempty_cycle_witness :
    (changed_filter [("in-pkts", "0"), ("out-pkts", "0")]
        [("in-pkts", "0"), ("out-pkts", "0")] = [] →
      ([("in-pkts", "0"), ("out-pkts", "0")] : StrMap String) =
        [("in-pkts", "0"), ("out-pkts", "0")]) ∧
    ([("in-pkts", "0"), ("out-pkts", "0")] : StrMap String) ≠ [] :=
  fallback_nonempty_cycle [("in-pkts", "0"), ("out-pkts", "0")] []
    ([("in-pkts", "0"), ("out-pkts", "0")], [("in-pkts", "0"), ("out-pkts", "0")])
    rfl

/-- Claim C6: a metric in the zero-suppressed set (one for which
`should_emit` vetoes the value `"0"`) whose current value is zero is never
emitted by `generate_updates` — regardless of the previous state, so in
particular on a FIRST_OBSERVATION (`prev leaf = none`); and the
always-emitted error/broadcast block of `ifaces-stats-snmp.py` never
contains a zero-valued entry after its `non_zero_batch` filter. -/
theorem zero_suppression_overrides :
    (∀ ifName (prev : String → Option String) (current : String → String)
        (tsNs : Int) leaf,
      should_emit leaf "0" = false → current leaf = "0" →
      ∀ u ∈ generate_updates_v3 ifName prev current tsNs,
        u.path ≠ get_path_v3 ifName leaf) ∧
    (∀ counters k v, (k, v) ∈ non_zero_batch counters → v ≠ "0") := by
  constructor
  · intro ifName prev current tsNs leaf hse hcur u hu
    have hmem : leaf ∈ ["in-discards", "out-discards", "in-errors", "out-errors"] ∨
        leaf ∈ ["in-broadcast-pkts", "out-broadcast-pkts"] := by
      by_contra hc
      push_neg at hc
      simp [should_emit, hc.1, hc.2] at hse
    have hne : "last-update" ≠ leaf := by
      rcases hmem with h | h <;> fin_cases h <;> decide
    simp only [generate_updates_v3, List.mem_cons] at hu
    rcases hu with rfl | hu
    · exact append_right_ne _ hne
    · rw [List.mem_filterMap] at hu
      obtain ⟨leafB, hmemB, hfB⟩ := hu
      split at hfB
      · rename_i hcond
        cases hfB
        intro heq
        have hlb : leafB = leaf := string_append_left_cancel heq
        subst hlb
        rw [hcur] at hcond
        rw [hcond.2] at hse
        exact Bool.true_eq_false.mp hse
      · exact absurd hfB (by simp)
  · intro counters k v hm
    have := List.of_mem_filter hm
    simpa using this

/-- Witness for C6: with `in-errors` at zero on the very first cycle, the
head batch (last-update) does not carry the `in-errors` path — and by the
theorem no update does; a non-zero entry survives `non_zero_batch`. -/
theorem zero_suppression_overrides_witness :
    GUpdate.path ⟨get_path_v3 "Ethernet1" "last-update",
        [(get_path_v3 "Ethernet1" "last-update", GVal.int 5)]⟩ ≠
      get_path_v3 "Ethernet1" "in-errors" ∧ ("7" : String) ≠ "0" :=
  ⟨zero_suppression_overrides.1 "Ethernet1" (fun _ => none)
      (fun l => if l = "in-errors" then "0" else "7") 5 "in-errors" (by decide)
      (by simp) _ (List.mem_cons_self _ _),
    zero_suppression_overrides.2 (fun _ => "7") "in-errors" "7" (by decide)⟩

/-- Claim C7 (counterexample): on the very first cycle (all previous values
are Python `None`), `in-errors` is a present metric key with value `"0"`,
yet `generate_updates` emits no update for its path — zero suppression
still applies, refuting "every present key is emitted". -/
theorem first_cycle_emits_all_cex :
    "in-errors" ∈ OID_KEYS_V3 ∧
    get_path_v3 "Ethernet1" "in-errors" ∉
      (generate_updates_v3 "Ethernet1" (fun _ => none)
        (fun l => if l = "in-errors" then "0" else "7") 5).map GUpdate.path := by
  exact ⟨by decide, by decide⟩

/-- Claim C7 (amended): on the very first cycle for a resource every present
metric key passes the change test (it is a first observation), and its
update is emitted if and only if it passes the zero-suppression check
`should_emit`; the on-change filter never suppresses a first observation. -/
theorem first_cycle_emission_iff :
    ∀ ifName (current : String → String) (tsNs : Int) leaf,
      leaf ∈ OID_KEYS_V3 →
      (get_path_v3 ifName leaf ∈
          (generate_updates_v3 ifName (fun _ => none) current tsNs).map
            GUpdate.path ↔
        should_emit leaf (current leaf) = true) := by
  intro ifName current tsNs leaf hleaf
  constructor
  · intro hmem
    rw [List.mem_map] at hmem
    obtain ⟨u, hu, hpath⟩ := hmem
    simp only [generate_updates_v3, List.mem_cons] at hu
    rcases hu with rfl | hu
    · exfalso
      have : "last-update" = leaf := string_append_left_cancel hpath
      rw [← this] at hleaf
      exact absurd hleaf (by decide)
    · rw [List.mem_filterMap] at hu
      obtain ⟨leafB, hmemB, hfB⟩ := hu
      split at hfB
      · rename_i hcond
        cases hfB
        have hlb : leafB = leaf := string_append_left_cancel hpath
        subst hlb
        exact hcond.2
      · exact absurd hfB (by simp)
  · intro hse
    rw [List.mem_map]
    refine ⟨⟨get_path_v3 ifName leaf,
      [(get_path_v3 ifName leaf, GVal.str (current leaf))]⟩, ?_, rfl⟩
    simp only [generate_updates_v3, List.mem_cons]
    right
    rw [List.mem_filterMap]
    exact ⟨leaf, hleaf, by simp [hse]⟩

/-- Witness for C7's amended theorem: `in-octets` with a non-zero value on
the first cycle is emitted (the iff holds at a concrete instance). -/
theorem first_cycle_emission_iff_witness :
    "in-octets" ∈ OID_KEYS_V3 ∧
    (get_path_v3 "Ethernet1" "in-octets" ∈
        (generate_updates_v3 "Ethernet1" (fun _ => none) (fun _ => "7") 5).map
          GUpdate.path ↔
      should_emit "in-octets" "7" = true) :=
  ⟨by decide,
    first_cycle_emission_iff "Ethernet1" (fun _ => "7") 5 "in-octets" (by decide)⟩

/-! Section: Ordering lemmas for the dual monitor's batch synthesis -/

theorem block_of_keys {counters : StrMap String} {keys : List String} :
    ∀ kv ∈ block_of counters keys, kv.1 ∈ keys := by
  intro kv hkv
  rw [block_of, List.mem_filterMap] at hkv
  obtain ⟨k, hk, hf⟩ := hkv
  cases hl : counters.lookup k with
  | none => rw [hl] at hf; simp at hf
  | some v =>
      rw [hl] at hf
      simp only [Option.map_some', Option.some.injEq] at hf
      rw [← hf]
      exact hk

theorem in_keys_disjoint : ∀ x ∈ IN_KEYS, x ∉ ERROR_KEYS ∧ x ∉ BC_KEYS := by
  decide

theorem out_keys_disjoint :
    ∀ x ∈ OUT_KEYS, x ∉ ERROR_KEYS ∧ x ∉ BC_KEYS ∧ x ∉ IN_KEYS := by decide

theorem bc_keys_disjoint : ∀ x ∈ BC_KEYS, x ∉ ERROR_KEYS := by decide

theorem rank_carrier_segment (isoOf : Int → String) (ifName : String)
    (counters : StrMap String) (tsNs : Int) :
    ∀ b ∈ carrier_segment isoOf ifName counters tsNs,
      rank_dual ifName b = 1 := by
  intro b hb
  rw [carrier_segment] at hb
  cases hl : counters.lookup "carrier-transitions" with
  | none => rw [hl] at hb; simp at hb
  | some v =>
      rw [hl] at hb
      simp only [List.mem_singleton] at hb
      subst hb
      simp only [rank_dual, emit_leaf]
      rw [if_neg (append_right_ne _ (by decide))]
      simp

theorem rank_error_segment (isoOf : Int → String) (ifName : String)
    (counters : StrMap String) (tsNs : Int) :
    ∀ b ∈ error_segment isoOf ifName counters tsNs,
      rank_dual ifName b = 2 := by
  intro b hb
  rw [error_segment] at hb
  split at hb
  · simp at hb
  · rename_i hne
    simp only [List.mem_singleton] at hb
    subst hb
    cases hblk : block_of counters ERROR_KEYS with
    | nil => rw [hblk] at hne; simp at hne
    | cons kv rest =>
        have hk : kv.1 ∈ ERROR_KEYS :=
          block_of_keys kv (hblk ▸ List.mem_cons_self _ _)
        simp only [emit_block, hblk, List.map_cons, rank_dual]
        rw [if_pos hk]

theorem rank_bc_segment (isoOf : Int → String) (ifName : String)
    (counters : StrMap String) (tsNs : Int) :
    ∀ b ∈ bc_segment isoOf ifName counters tsNs, rank_dual ifName b = 3 := by
  intro b hb
  rw [bc_segment] at hb
  split at hb
  · simp at hb
  · rename_i hne
    simp only [List.mem_singleton] at hb
    subst hb
    cases hblk : block_of counters BC_KEYS with
    | nil => rw [hblk] at hne; simp at hne
    | cons kv rest =>
        have hk : kv.1 ∈ BC_KEYS :=
          block_of_keys kv (hblk ▸ List.mem_cons_self _ _)
        simp only [emit_block, hblk, List.map_cons, rank_dual]
        rw [if_neg (bc_keys_disjoint kv.1 hk), if_pos hk]

theorem rank_in_segment (isoOf : Int → String) (ifName : String)
    (counters : StrMap String) (tsNs : Int) :
    ∀ b ∈ in_segment isoOf ifName counters tsNs, rank_dual ifName b = 4 := by
  intro b hb
  rw [in_segment] at hb
  split at hb
  · simp at hb
  · rename_i k v hblk
    split at hb
    · simp only [List.mem_singleton] at hb
      subst hb
      simp only [rank_dual, emit_leaf]
      rw [if_neg (append_right_ne _ (by decide)),
        if_neg (append_right_ne _ (by decide))]
      simp
    · simp only [List.mem_singleton] at hb
      subst hb
      have hk : k ∈ IN_KEYS := block_of_keys (k, v) (hblk ▸ List.mem_cons_self _ _)
      simp only [emit_block, List.map_cons, rank_dual]
      rw [if_neg (in_keys_disjoint k hk).1, if_neg (in_keys_disjoint k hk).2,
        if_pos hk]
  · rename_i b1 hnil hsing
    simp only [List.mem_singleton] at hb
    subst hb
    cases hblk : block_of counters IN_KEYS with
    | nil => exact absurd hblk hnil
    | cons kv rest =>
        have hk : kv.1 ∈ IN_KEYS :=
          block_of_keys kv (hblk ▸ List.mem_cons_self _ _)
        simp only [emit_block, hblk, List.map_cons, rank_dual]
        rw [if_neg (in_keys_disjoint kv.1 hk).1,
          if_neg (in_keys_disjoint kv.1 hk).2, if_pos hk]

theorem rank_out_segment (isoOf : Int → String) (ifName : String)
    (counters : StrMap String) (tsNs : Int) :
    ∀ b ∈ out_segment isoOf ifName counters tsNs, rank_dual ifName b = 5 := by
  intro b hb
  rw [out_segment] at hb
  split at hb
  · simp at hb
  · rename_i k v hblk
    split at hb
    · simp only [List.mem_singleton] at hb
      subst hb
      simp only [rank_dual, emit_leaf]
      rw [if_neg (append_right_ne _ (by decide)),
        if_neg (append_right_ne _ (by decide)),
        if_neg (append_right_ne _ (by decide))]
      simp
    · simp only [List.mem_singleton] at hb
      subst hb
      have hk : k ∈ OUT_KEYS :=
        block_of_keys (k, v) (hblk ▸ List.mem_cons_self _ _)
      simp only [emit_block, List.map_cons, rank_dual]
      rw [if_neg (out_keys_disjoint k hk).1, if_neg (out_keys_disjoint k hk).2.1,
        if_neg (out_keys_disjoint k hk).2.2, if_pos hk]
  · rename_i b1 hnil hsing
    simp only [List.mem_singleton] at hb
    subst hb
    cases hblk : block_of counters OUT_KEYS with
    | nil => exact absurd hblk hnil
    | cons kv rest =>
        have hk : kv.1 ∈ OUT_KEYS :=
          block_of_keys kv (hblk ▸ List.mem_cons_self _ _)
        simp only [emit_block, hblk, List.map_cons, rank_dual]
        rw [if_neg (out_keys_disjoint kv.1 hk).1,
          if_neg (out_keys_disjoint kv.1 hk).2.1,
          if_neg (out_keys_disjoint kv.1 hk).2.2, if_pos hk]

theorem pairwise_le_of_const {α : Type} (r : α → Nat) (k : Nat) (l : List α)
    (h : ∀ x ∈ l, r x = k) : (l.map r).Pairwise (· ≤ ·) := by
  induction l with
  | nil => simp
  | cons x rest ih =>
      rw [List.map_cons, List.pairwise_cons]
      refine ⟨?_, ih (fun y hy => h y (List.mem_cons_of_mem _ hy))⟩
      intro b hb
      rw [List.mem_map] at hb
      obtain ⟨y, hy, rfl⟩ := hb
      rw [h x (List.mem_cons_self _ _), h y (List.mem_cons_of_mem _ hy)]

theorem pairwise_rank_append {α : Type} (r : α → Nat) (l1 l2 : List α) (k : Nat)
    (hb1 : ∀ x ∈ l1, r x ≤ k) (hb2 : ∀ x ∈ l2, k ≤ r x)
    (p1 : (l1.map r).Pairwise (· ≤ ·)) (p2 : (l2.map r).Pairwise (· ≤ ·)) :
    ((l1 ++ l2).map r).Pairwise (· ≤ ·) := by
  rw [List.map_append, List.pairwise_append]
  refine ⟨p1, p2, ?_⟩
  intro a ha b hbm
  rw [List.mem_map] at ha hbm
  obtain ⟨x, hx, rfl⟩ := ha
  obtain ⟨y, hy, rfl⟩ := hbm
  exact le_trans (hb1 x hx) (hb2 y hy)

/-- Claim C8: whenever `generate_updates` of the dual monitor completes, the
first batch of the cycle's output is the synthetic `last-update` batch —
a per-leaf single-update batch carrying the cycle timestamp as an integer,
produced unconditionally (for every previous state and every raw
snapshot, hence bypassing the change filter) — and the batch kinds appear
in the fixed configured order (last-update, carrier-transitions, error
block, broadcast block, `in-*` block, `out-*` block), as witnessed by
their `rank_dual` positions being pairwise non-decreasing. -/
theorem last_update_first_and_ordered :
    ∀ (isoOf : Int → String) ifName prev raw (tsNs : Int) p,
      generate_updates_dual isoOf ifName prev raw tsNs = some p →
      p.1.head? = some (emit_leaf isoOf
        (path_prefix_dual ifName ++ "/last-update") (GVal.int tsNs) tsNs) ∧
      (emit_leaf isoOf (path_prefix_dual ifName ++ "/last-update")
          (GVal.int tsNs) tsNs).updates =
        [⟨path_prefix_dual ifName ++ "/last-update",
          [(path_prefix_dual ifName ++ "/last-update", GVal.int tsNs)]⟩] ∧
      (p.1.map (rank_dual ifName)).Pairwise (· ≤ ·) := by
  intro isoOf ifName prev raw tsNs p hp
  unfold generate_updates_dual at hp
  cases hc : collect_counters_v2 prev raw with
  | none => rw [hc] at hp; simp at hp
  | some pr =>
      rw [hc] at hp
      simp only [Option.map_some', Option.some.injEq] at hp
      subst hp
      refine ⟨rfl, rfl, ?_⟩
      rw [List.map_cons, List.pairwise_cons]
      have h0 : rank_dual ifName (emit_leaf isoOf
          (path_prefix_dual ifName ++ "/last-update") (GVal.int tsNs) tsNs) = 0 := by
        simp [rank_dual, emit_leaf]
      constructor
      · intro b hb
        rw [h0]
        exact Nat.zero_le _
      · have hc1 := rank_carrier_segment isoOf ifName pr.1 tsNs
        have hc2 := rank_error_segment isoOf ifName pr.1 tsNs
        have hc3 := rank_bc_segment isoOf ifName pr.1 tsNs
        have hc4 := rank_in_segment isoOf ifName pr.1 tsNs
        have hc5 := rank_out_segment isoOf ifName pr.1 tsNs
        have q1 := pairwise_rank_append (rank_dual ifName) _ _ 1
          (fun x hx => le_of_eq (hc1 x hx))
          (fun x hx => by rw [hc2 x hx]; omega)
          (pairwise_le_of_const (rank_dual ifName) 1 _ hc1)
          (pairwise_le_of_const (rank_dual ifName) 2 _ hc2)
        have bb1 : ∀ x ∈ carrier_segment isoOf ifName pr.1 tsNs ++
            error_segment isoOf ifName pr.1 tsNs,
            rank_dual ifName x ≤ 2 := by
          intro x hx
          rcases List.mem_append.mp hx with h | h
          · rw [hc1 x h]; omega
          · rw [hc2 x h]
        have q2 := pairwise_rank_append (rank_dual ifName) _ _ 2 bb1
          (fun x hx => by rw [hc3 x hx]; omega) q1
          (pairwise_le_of_const (rank_dual ifName) 3 _ hc3)
        have bb2 : ∀ x ∈ carrier_segment isoOf ifName pr.1 tsNs ++
            error_segment isoOf ifName pr.1 tsNs ++
            bc_segment isoOf ifName pr.1 tsNs,
            rank_dual ifName x ≤ 3 := by
          intro x hx
          rcases List.mem_append.mp hx with h | h
          · have := bb1 x h; omega
          · rw [hc3 x h]
        have q3 := pairwise_rank_append (rank_dual ifName) _ _ 3 bb2
          (fun x hx => by rw [hc4 x hx]; omega) q2
          (pairwise_le_of_const (rank_dual ifName) 4 _ hc4)
        have bb3 : ∀ x ∈ carrier_segment isoOf ifName pr.1 tsNs ++
            error_segment isoOf ifName pr.1 tsNs ++
            bc_segment isoOf ifName pr.1 tsNs ++
            in_segment isoOf ifName pr.1 tsNs,
            rank_dual ifName x ≤ 4 := by
          intro x hx
          rcases List.mem_append.mp hx with h | h
          · have := bb2 x h; omega
          · rw [hc4 x h]
        exact pairwise_rank_append (rank_dual ifName) _ _ 4 bb3
          (fun x hx => by rw [hc5 x hx]; omega) q3
          (pairwise_le_of_const (rank_dual ifName) 5 _ hc5)

/-- Witness for C8 at a concrete input (empty raw snapshot, empty previous
state): the head batch is the last-update batch and the ranks are ordered. -/
theorem last_update_first_and_ordered_witness :
    (((generate_updates_dual (fun _ => "t") "Ethernet1" [] [] 5).getD
          ([], [])).1).head? =
      some (emit_leaf (fun _ => "t")
        (path_prefix_dual "Ethernet1" ++ "/last-update") (GVal.int 5) 5) ∧
    (emit_leaf (fun _ => "t") (path_prefix_dual "Ethernet1" ++ "/last-update")
        (GVal.int 5) 5).updates =
      [⟨path_prefix_dual "Ethernet1" ++ "/last-update",
        [(path_prefix_dual "Ethernet1" ++ "/last-update", GVal.int 5)]⟩] ∧
    ((((generate_updates_dual (fun _ => "t") "Ethernet1" [] [] 5).getD
          ([], [])).1).map (rank_dual "Ethernet1")).Pairwise (· ≤ ·) :=
  last_update_first_and_ordered (fun _ => "t") "Ethernet1" [] [] 5 _ rfl

/-! Section: Cache-state lemmas for the optimizado collector -/

theorem compact_step_self (ifName : String) (acc : List GUpdate × StrMap Int)
    (mv : String × Int) :
    (compact_step ifName acc mv).2.lookup (ifName ++ "_" ++ mv.1) =
      some mv.2 := by
  simp only [compact_step]
  split
  · exact lookup_setKey_self _ _ _
  · rename_i h
    rw [Bool.not_eq_true] at h
    simp only [should_include, Bool.or_eq_false_iff, decide_eq_false_iff_not] at h
    obtain ⟨hmem, hmatch⟩ := h
    cases hl : acc.2.lookup (ifName ++ "_" ++ mv.1) with
    | none => rw [hl] at hmatch; simp at hmatch
    | some p =>
        rw [hl] at hmatch
        simp only [Bool.or_eq_false_iff, decide_eq_false_iff_not, not_not] at hmatch
        rw [hmatch.1]

theorem compact_step_preserve (ifName : String)
    (acc : List GUpdate × StrMap Int) (mv : String × Int) (k : String)
    (hk : k ≠ ifName ++ "_" ++ mv.1) :
    (compact_step ifName acc mv).2.lookup k = acc.2.lookup k := by
  simp only [compact_step]
  split
  · exact lookup_setKey_ne _ _ hk
  · rfl

theorem compact_fold_preserve (ifName : String) :
    ∀ (ms : List (String × Int)) (acc : List GUpdate × StrMap Int) (k : String),
      (∀ x ∈ ms, k ≠ ifName ++ "_" ++ x.1) →
      (ms.foldl (compact_step ifName) acc).2.lookup k = acc.2.lookup k := by
  intro ms
  induction ms with
  | nil => intro acc k _; rfl
  | cons x rest ih =>
      intro acc k hk
      rw [List.foldl_cons, ih _ k (fun y hy => hk y (List.mem_cons_of_mem _ hy))]
      exact compact_step_preserve ifName acc x k (hk x (List.mem_cons_self _ _))

theorem compact_fold_cache (ifName : String) :
    ∀ (ms : List (String × Int)) (acc : List GUpdate × StrMap Int),
      (ms.map Prod.fst).Nodup →
      ∀ mv ∈ ms,
        (ms.foldl (compact_step ifName) acc).2.lookup (ifName ++ "_" ++ mv.1) =
          some mv.2 := by
  intro ms
  induction ms with
  | nil => intro acc _ mv h; simp at h
  | cons x rest ih =>
      intro acc hnd mv hmv
      rw [List.map_cons, List.nodup_cons] at hnd
      rcases List.mem_cons.mp hmv with rfl | hmv2
      · rw [List.foldl_cons, compact_fold_preserve ifName rest _ _ ?hne]
        case hne =>
          intro y hy hcontra
          exact hnd.1 ((string_append_left_cancel hcontra) ▸
            List.mem_map_of_mem Prod.fst hy)
        exact compact_step_self ifName acc mv
      · rw [List.foldl_cons]
        exact ih _ hnd.2 mv hmv2

theorem compact_iface_step_cache (clkNanos : Int) (clkIso : String)
    (data : StrMap (StrMap Int)) (ifName : String) (metrics : StrMap Int)
    (mv : String × Int) (acc : List GLine × StrMap Int)
    (hdata : data.lookup ifName = some metrics)
    (hnd : (metrics.map Prod.fst).Nodup) (hmv : mv ∈ metrics) :
    (compact_iface_step clkNanos clkIso data acc ifName).2.lookup
      (ifName ++ "_" ++ mv.1) = some mv.2 := by
  have hcache := compact_fold_cache ifName metrics ([], acc.2) hnd mv hmv
  simp only [compact_iface_step, hdata]
  split <;> exact hcache

theorem compact_iface_step_preserve (clkNanos : Int) (clkIso : String)
    (data : StrMap (StrMap Int)) (pre other : String) (suffix : String)
    (acc : List GLine × StrMap Int)
    (hlen : (pre ++ "_" : String).data.length = (other ++ "_").data.length)
    (hne : (pre ++ "_" : String) ≠ other ++ "_") :
    (compact_iface_step clkNanos clkIso data acc other).2.lookup
      (pre ++ "_" ++ suffix) = acc.2.lookup (pre ++ "_" ++ suffix) := by
  cases hl : data.lookup other with
  | none => simp [compact_iface_step, hl]
  | some ms =>
      have hpr := compact_fold_preserve other ms ([], acc.2)
        (pre ++ "_" ++ suffix) (fun y hy => append_ne_of_ne suffix y.1 hlen hne)
      simp only [compact_iface_step, hl]
      split <;> exact hpr

/-- Claim C10: after `generate_compact_gnmi`, the `previous_values` cache
entry of every metric of every processed interface equals that metric's
value in the cycle's data — although the cache is written only inside the
`should_include` branch, a cached value differing from the current one
forces `should_include` to be true, so the cache never goes stale.
(`metrics` models a Python dict, so its keys are distinct.) -/
theorem compact_cache_never_stale :
    ∀ (clkNanos : Int) (clkIso : String) (cycleCount : Nat)
      (prevValues : StrMap Int) (data : StrMap (StrMap Int))
      (ifName : String) (metrics : StrMap Int) (mv : String × Int),
      ifName ∈ OPT_INTERFACES →
      data.lookup ifName = some metrics →
      (metrics.map Prod.fst).Nodup →
      mv ∈ metrics →
      (generate_compact_gnmi clkNanos clkIso cycleCount prevValues
          data).2.lookup (ifName ++ "_" ++ mv.1) = some mv.2 := by
  intro clkNanos clkIso cyc prevValues data ifName metrics mv hif hdata hnd hmv
  fin_cases hif
  · -- ifName = "Ethernet1": established by the first step, preserved by the second
    unfold generate_compact_gnmi
    have hmain : ((OPT_INTERFACES.foldl
        (compact_iface_step clkNanos clkIso data) ([], prevValues)).2).lookup
          ("Ethernet1" ++ "_" ++ mv.1) = some mv.2 := by
      show ((compact_iface_step clkNanos clkIso data
        (compact_iface_step clkNanos clkIso data ([], prevValues) "Ethernet1")
        "Ethernet2").2).lookup ("Ethernet1" ++ "_" ++ mv.1) = some mv.2
      rw [compact_iface_step_preserve clkNanos clkIso data "Ethernet1"
        "Ethernet2" mv.1 _ (by decide) (by decide)]
      exact compact_iface_step_cache clkNanos clkIso data "Ethernet1" metrics mv
        _ hdata hnd hmv
    split <;> exact hmain
  · -- ifName = "Ethernet2": established by the second (last) step
    unfold generate_compact_gnmi
    have hmain : ((OPT_INTERFACES.foldl
        (compact_iface_step clkNanos clkIso data) ([], prevValues)).2).lookup
          ("Ethernet2" ++ "_" ++ mv.1) = some mv.2 := by
      show ((compact_iface_step clkNanos clkIso data
        (compact_iface_step clkNanos clkIso data ([], prevValues) "Ethernet1")
        "Ethernet2").2).lookup ("Ethernet2" ++ "_" ++ mv.1) = some mv.2
      exact compact_iface_step_cache clkNanos clkIso data "Ethernet2" metrics mv
        _ hdata hnd hmv
    split <;> exact hmain

/-- Witness for C10: one interface, one metric; after the cycle the cache
holds exactly the observed value. -/
theorem compact_cache_never_stale_witness :
    (generate_compact_gnmi 2000000000 "T" 1 []
        [("Ethernet1", [("in-errors", 5)])]).2.lookup
      ("Ethernet1" ++ "_" ++ "in-errors") = some 5 :=
  compact_cache_never_stale 2000000000 "T" 1 []
    [("Ethernet1", [("in-errors", 5)])] "Ethernet1" [("in-errors", 5)]
    ("in-errors", 5) (by decide) (by decide) (by decide) (by decide)

/-! Section: Timestamp lemmas for the get.py collector -/

theorem individual_fold_time (ifName : String) (ifData : StrMap Int)
    (tsI : Int) (iso : String) :
    ∀ (ms : List String) (acc : List GBatch × StrMap Int),
      (∀ b ∈ acc.1, b.time = iso ∧ b.timestamp = tsI) →
      ∀ b ∈ (ms.foldl (individual_step ifName ifData tsI iso) acc).1,
        b.time = iso ∧ b.timestamp = tsI := by
  intro ms
  induction ms with
  | nil => intro acc hacc b hb; exact hacc b hb
  | cons m rest ih =>
      intro acc hacc b hb
      rw [List.foldl_cons] at hb
      refine ih _ ?_ b hb
      intro c hc
      simp only [individual_step] at hc
      split at hc
      · exact hacc c hc
      · split at hc
        · rcases List.mem_append.mp hc with h | h
          · exact hacc c h
          · simp only [List.mem_singleton] at h
            subst h
            exact ⟨rfl, rfl⟩
        · exact hacc c hc

/-- Claim C4 (counterexample): in one cycle with a single interface carrying
`in-octets` and `in-discards`, `generate_gnmi_objects` emits three batches
whose epoch timestamps are pairwise different (the provider value, minus
1000000 for the individual metric, minus 500000 for group 2), refuting
"every batch within one cycle carries the exact same timestamp pair". -/
theorem same_cycle_timestamps_cex :
    ((generate_gnmi_objects (fun _ => (2000000000, "T")) 0 []
        [("Ethernet1", [("in-octets", 5), ("in-discards", 7)])]).1.map
      GLine.tsOf) =
      [some 1999999999, some 1998999999, some 1999499999] ∧
    (1999999999 : Int) ≠ 1998999999 := by
  exact ⟨by decide, by decide⟩

/-- Claim C4 (amended): the timestamp provider `get_gnmi_timestamps` is
invoked once per interface (not once per cycle), and all batches produced
for one interface share that invocation's ISO-8601 string while their
epoch-nanosecond values take one of three per-group offsets from the
invocation's value: the main group carries it as is, each individual
changed-metric batch carries it minus 1000000, and the group-2 batch
carries it minus 500000. -/
theorem interface_batches_share_iso :
    ∀ ifName ifData (counter : Nat) (lastValues : StrMap Int)
      (clkNanos : Int) (clkIso : String),
      ∀ b ∈ (gen_for_interface ifName ifData counter lastValues clkNanos
          clkIso).1,
        b.time = clkIso ∧
        (b.timestamp = (get_gnmi_timestamps counter clkNanos clkIso).1 ∨
          b.timestamp = (get_gnmi_timestamps counter clkNanos clkIso).1 -
            1000000 ∨
          b.timestamp = (get_gnmi_timestamps counter clkNanos clkIso).1 -
            500000) := by
  intro ifName ifData counter lastValues clkNanos clkIso b hb
  simp only [gen_for_interface] at hb
  rcases List.mem_append.mp hb with hb1 | hg2
  · rcases List.mem_append.mp hb1 with hmain | hind
    · split at hmain
      · simp at hmain
      · simp only [List.mem_singleton] at hmain
        subst hmain
        exact ⟨rfl, Or.inl rfl⟩
    · have := individual_fold_time ifName ifData
        ((get_gnmi_timestamps counter clkNanos clkIso).1 - 1000000)
        (get_gnmi_timestamps counter clkNanos clkIso).2.1
        INDIVIDUAL_METRICS ([], lastValues) (by simp) b hind
      exact ⟨this.1, Or.inr (Or.inl this.2)⟩
  · split at hg2
    · simp at hg2
    · simp only [List.mem_singleton] at hg2
      subst hg2
      exact ⟨rfl, Or.inr (Or.inr rfl)⟩

/-- Witness for C4's amended theorem: the single main-group batch of a
concrete one-metric interface carries the provider's ISO string and its
epoch value unchanged. -/
theorem interface_batches_share_iso_witness :
    GBatch.time ⟨"router-edge", "eos_interface_stats", 1999999999, "T",
        some "interfaces/interface[name=Ethernet1]/state/counters",
        [⟨"in-octets", [("in-octets", GVal.int 5)]⟩]⟩ = "T" ∧
    (GBatch.timestamp ⟨"router-edge", "eos_interface_stats", 1999999999, "T",
        some "interfaces/interface[name=Ethernet1]/state/counters",
        [⟨"in-octets", [("in-octets", GVal.int 5)]⟩]⟩ =
        (get_gnmi_timestamps 0 2000000000 "T").1 ∨
      GBatch.timestamp ⟨"router-edge", "eos_interface_stats", 1999999999, "T",
          some "interfaces/interface[name=Ethernet1]/state/counters",
          [⟨"in-octets", [("in-octets", GVal.int 5)]⟩]⟩ =
        (get_gnmi_timestamps 0 2000000000 "T").1 - 1000000 ∨
      GBatch.timestamp ⟨"router-edge", "eos_interface_stats", 1999999999, "T",
          some "interfaces/interface[name=Ethernet1]/state/counters",
          [⟨"in-octets", [("in-octets", GVal.int 5)]⟩]⟩ =
        (get_gnmi_timestamps 0 2000000000 "T").1 - 500000) :=
  interface_batches_share_iso "Ethernet1" [("in-octets", 5)] 0 [] 2000000000
    "T" _ (by decide)

end IspMonitor
